import Mathlib

/-!
Shallow embedding of the rs-socks5 SOCKS5 proxy server
(src/main.rs, src/server.rs, src/server/connection.rs), together with
theorems settling the specification claims about it.

The embedding has two layers:

* An event-level model of the exact-length I/O primitives `read_exact` and
  `write_all` (connection.rs lines 291-331, duplicated in main.rs lines
  160-200).  A stream is a finite list of `try_read`/`try_write` outcomes;
  each outcome either reports how many bytes the socket can transfer, a
  would-block notification, or an I/O error (which also stands for an error
  from `readable().await?`).

* A byte-level model of the protocol functions `handle_shake`,
  `parse_command`, `process_connect` and `process` of
  `SOCKS5ClientConnection` (connection.rs lines 82-288).  The client input
  is the list of bytes the client sends before closing; external
  collaborators (DNS resolution, destination connect) and reply-write
  success are oracles in an environment record.  Because `read_exact`
  returns `Ok(())` with the zero-initialised tail of the buffer untouched
  when the peer closes early, a byte-level read of `k` bytes yields the
  next `k` stream bytes zero-padded.  Rust `unwrap()` on a failed oracle is
  modelled as a distinct `panicked` outcome.
-/

namespace RsSocks5

/-- `PROTOCOL_VERSION` (connection.rs line 10). -/
def PROTOCOL_VERSION : Nat := 0x05

/-- `NO_AUTHENTICATION_REQUIRED` (connection.rs line 12). -/
def NO_AUTHENTICATION_REQUIRED : Nat := 0x00

/-- `PROXY_CMD_CONNECT` (connection.rs line 14). -/
def PROXY_CMD_CONNECT : Nat := 0x01

/-- `ADDRESS_TYPE_IPV4` (connection.rs line 18). -/
def ADDRESS_TYPE_IPV4 : Nat := 0x01

/-- `ADDRESS_TYPE_DOMAIN_NAME` (connection.rs line 19). -/
def ADDRESS_TYPE_DOMAIN_NAME : Nat := 0x03

/-- `ADDRESS_TYPE_IPV6` (connection.rs line 20). -/
def ADDRESS_TYPE_IPV6 : Nat := 0x04

/-- `REPLY_SUCCEEDED` (connection.rs line 22). -/
def REPLY_SUCCEEDED : Nat := 0x00

/-- `REPLY_CONNECTION_REFUSED` (connection.rs line 27). -/
def REPLY_CONNECTION_REFUSED : Nat := 0x05

/-- `RESERVED` (connection.rs line 33). -/
def RESERVED : Nat := 0x00

/-! ### Event-level model of the exact-length I/O loops -/

/-- One outcome of a `stream.readable().await` / `stream.try_read(&buf[offset..])`
(resp. `try_write`) round in the loops of connection.rs lines 291-331.
`avail n` means the socket can transfer `n` bytes right now (`n = 0` is the
peer having closed, surfacing as `Ok(0)`); `wouldBlock` is a spurious
readiness notification (`ErrorKind::WouldBlock`); `ioError` is any other
I/O error, from `try_read`/`try_write` or from `readable()`/`writable()`
itself. -/
inductive TryRead where
  | avail (n : Nat)
  | wouldBlock
  | ioError
deriving DecidableEq, Repr

/-- Result of running an exact-length I/O loop: `ok finalOffset` models the
function returning `Ok(())` with `finalOffset` bytes transferred, `ioErr`
models returning `Err(e)`, and `pending offset` marks the event list being
exhausted while the loop still waits (the run was cut off mid-flight). -/
inductive IoOutcome where
  | ok (finalOffset : Nat)
  | ioErr
  | pending (offset : Nat)
deriving DecidableEq, Repr

/-- The loop of `read_exact(stream, buf)` (connection.rs lines 291-310) over a
buffer of length `len`, starting at `offset`.  A `try_read` on the slice
`buf[offset..]` transfers `min n (len - offset)` bytes when `n` are
available; `Ok(0)` breaks out of the loop and the function then returns
`Ok(())` even when `offset < len`. -/
def read_exact (len : Nat) : List TryRead → Nat → IoOutcome
  | [], offset => if offset < len then .pending offset else .ok offset
  | e :: rest, offset =>
    if offset < len then
      match e with
      | .avail 0 => .ok offset
      | .avail (n + 1) => read_exact len rest (offset + min (n + 1) (len - offset))
      | .wouldBlock => read_exact len rest offset
      | .ioError => .ioErr
    else .ok offset

/-- The loop of `write_all(stream, buf)` (connection.rs lines 312-331): the
same control structure as `read_exact`, with `try_write` on the slice
`buf[offset..]` transferring `min n (len - offset)` bytes. -/
def write_all (len : Nat) : List TryRead → Nat → IoOutcome
  | [], offset => if offset < len then .pending offset else .ok offset
  | e :: rest, offset =>
    if offset < len then
      match e with
      | .avail 0 => .ok offset
      | .avail (n + 1) => write_all len rest (offset + min (n + 1) (len - offset))
      | .wouldBlock => write_all len rest offset
      | .ioError => .ioErr
    else .ok offset

/-- The trace of values `offset` takes in `read_exact` each time the loop
body evaluates the slice `buf[offset..]` (and at entry / exit), for the
bounds analysis of the loop. -/
def readExactOffsets (len : Nat) : List TryRead → Nat → List Nat
  | [], offset => [offset]
  | e :: rest, offset =>
    if offset < len then
      match e with
      | .avail 0 => [offset]
      | .avail (n + 1) => offset :: readExactOffsets len rest (offset + min (n + 1) (len - offset))
      | .wouldBlock => offset :: readExactOffsets len rest offset
      | .ioError => [offset]
    else [offset]

/-- The trace of values `offset` takes in `write_all` each time the loop body
evaluates the slice `buf[offset..]` (and at entry / exit). -/
def writeAllOffsets (len : Nat) : List TryRead → Nat → List Nat
  | [], offset => [offset]
  | e :: rest, offset =>
    if offset < len then
      match e with
      | .avail 0 => [offset]
      | .avail (n + 1) => offset :: writeAllOffsets len rest (offset + min (n + 1) (len - offset))
      | .wouldBlock => offset :: writeAllOffsets len rest offset
      | .ioError => [offset]
    else [offset]

/-! ### Byte-level model of the protocol functions -/

/-- `SOCKS5ConnectionErr` (connection.rs lines 37-44). -/
inductive SOCKS5ConnectionErr where
  | InvalidVersion
  | UnsupportedAuthMethod
  | UnsupportedCommand
  | InvalidAddressType
  | ConnectionFailed
deriving DecidableEq, Repr

/-- Outcome of a fallible protocol step: `ok` for `Ok(..)`, `err` for
`Err(..)`, and `panicked` for a Rust `unwrap()` firing on a failed
operation (a task panic, not a returned error). -/
inductive HResult (α : Type) where
  | ok (a : α)
  | err (e : SOCKS5ConnectionErr)
  | panicked
deriving DecidableEq, Repr

/-- `std::net::IpAddr` restricted to what the program observes: the octet
lists of `Ipv4Addr` / `Ipv6Addr` (as produced by `Ipv4Addr::from([u8;4])` /
`Ipv6Addr::from([u8;16])`, whose `octets()` return the same arrays). -/
inductive IpAddr where
  | v4 (octets : List Nat)
  | v6 (octets : List Nat)
deriving DecidableEq, Repr

/-- `Address` (connection.rs lines 53-57). -/
structure Address where
  host : IpAddr
  port : Nat
deriving DecidableEq, Repr

/-- `SOCKS5Command` (connection.rs lines 46-51): only `Connect` exists. -/
inductive SOCKS5Command where
  | Connect (addr : Address)
deriving DecidableEq, Repr

/-- The environment of one connection: the bytes the client sends before
closing, and the oracles for the external collaborators.  `resolveResult`
is the first address produced by `to_socket_addrs()` for the requested
domain (`none`: resolution fails or yields nothing); `connectResult` is
`some (localIp, localPort)` when `TcpStream::connect` succeeds with that
local bound address, `none` when it fails.  The three `..WriteOk` flags
say whether the corresponding reply write to the client succeeds. -/
structure Env where
  input : List Nat
  resolveResult : Option IpAddr
  connectResult : Option (IpAddr × Nat)
  greetingWriteOk : Bool
  refusalWriteOk : Bool
  successWriteOk : Bool

/-- `read_exact` into a fresh zero-initialised buffer of length `k`, at the
byte level: the buffer ends up holding the next `k` stream bytes, zero-padded
if the peer closes first (the loop breaks on `Ok(0)` and still returns
`Ok(())`, leaving the tail of the buffer at its `0` initialisation). -/
def readN (k : Nat) (s : List Nat) : List Nat × List Nat :=
  (s.take k ++ List.replicate (k - s.length) 0, s.drop k)

/-- `u16::from_be_bytes` on a 2-byte buffer. -/
def u16FromBe (l : List Nat) : Nat := l.getD 0 0 * 256 + l.getD 1 0

/-- `u16::to_be_bytes` of a port value. -/
def be16 (p : Nat) : List Nat := [p / 256 % 256, p % 256]

/-- The greeting reply `[PROTOCOL_VERSION, NO_AUTHENTICATION_REQUIRED]`
(connection.rs lines 123-127). -/
def greetingReply : List Nat := [PROTOCOL_VERSION, NO_AUTHENTICATION_REQUIRED]

/-- The method-reading loop of `handle_shake` (connection.rs lines 112-116):
`num_methods` single-byte reads, each pushed onto `methods`; returns the
pushed bytes in order and the remaining stream. -/
def readMethods : Nat → List Nat → List Nat × List Nat
  | 0, s => ([], s)
  | k + 1, s =>
    let (b, s1) := readN 1 s
    let (ms, s2) := readMethods k s1
    (b ++ ms, s2)

/-- Result of `handle_shake`: its `Result`, the replies written to the
client so far, and the unread remainder of the client stream. -/
structure ShakeResult where
  result : HResult Unit
  writes : List (List Nat)
  rest : List Nat
deriving DecidableEq, Repr

/-- `SOCKS5ClientConnection::handle_shake` (connection.rs lines 101-133).
Note `let mut methods = vec![0; num_methods]` (line 111) pre-fills the
vector with `num_methods` zero entries before the loop pushes the bytes
actually read, so the later `methods.contains(&0x00)` test sees those
zeros as well. -/
def handle_shake (env : Env) : ShakeResult :=
  let (buf, s) := readN 2 env.input
  if buf.getD 0 0 ≠ PROTOCOL_VERSION then
    ⟨.err .InvalidVersion, [], s⟩
  else
    let num_methods := buf.getD 1 0
    let (ms, s) := readMethods num_methods s
    let methods := List.replicate num_methods 0 ++ ms
    if ¬ methods.contains NO_AUTHENTICATION_REQUIRED then
      ⟨.err .UnsupportedAuthMethod, [], s⟩
    else if env.greetingWriteOk then
      ⟨.ok (), [greetingReply], s⟩
    else
      ⟨.err .ConnectionFailed, [greetingReply], s⟩

/-- Result of `parse_command`: its `Result` and the unread remainder of the
client stream (it writes nothing to the client). -/
structure ParseResult where
  result : HResult SOCKS5Command
  rest : List Nat
deriving DecidableEq, Repr

/-- `SOCKS5ClientConnection::parse_command` (connection.rs lines 135-207).
The domain branch calls `to_socket_addrs().unwrap()` and `.next().unwrap()`
(lines 186-187): a failed or empty resolution is a panic, not an `Err`. -/
def parse_command (env : Env) (s : List Nat) : ParseResult :=
  let (buf, s) := readN 4 s
  if buf.getD 0 0 ≠ PROTOCOL_VERSION then
    ⟨.err .InvalidVersion, s⟩
  else if buf.getD 1 0 ≠ PROXY_CMD_CONNECT then
    ⟨.err .UnsupportedCommand, s⟩
  else
    let step : HResult IpAddr × List Nat :=
      if buf.getD 3 0 = ADDRESS_TYPE_IPV4 then
        let (a, s) := readN 4 s
        (.ok (.v4 a), s)
      else if buf.getD 3 0 = ADDRESS_TYPE_IPV6 then
        let (a, s) := readN 16 s
        (.ok (.v6 a), s)
      else if buf.getD 3 0 = ADDRESS_TYPE_DOMAIN_NAME then
        let (lb, s) := readN 1 s
        let (_domain, s) := readN (lb.getD 0 0) s
        match env.resolveResult with
        | some ip => (.ok ip, s)
        | none => (.panicked, s)
      else
        (.err .InvalidAddressType, s)
    match step with
    | (.ok host, s) =>
      let (pb, s) := readN 2 s
      ⟨.ok (.Connect ⟨host, u16FromBe pb⟩), s⟩
    | (.err e, s) => ⟨.err e, s⟩
    | (.panicked, s) => ⟨.panicked, s⟩

/-- The refusal reply of connection.rs lines 213-224. -/
def refusalReply : List Nat :=
  [PROTOCOL_VERSION, REPLY_CONNECTION_REFUSED, RESERVED, ADDRESS_TYPE_IPV4, 0, 0, 0, 0, 0, 0]

/-- The `bnd_addr` encoding of connection.rs lines 230-241: address-type tag
followed by the raw octets of the destination socket's local bound address. -/
def encodeBndAddr : IpAddr → List Nat
  | .v4 o => ADDRESS_TYPE_IPV4 :: o
  | .v6 o => ADDRESS_TYPE_IPV6 :: o

/-- Result of `process_connect`: its `Result`, the replies written to the
client, and whether the relay loop was entered. -/
structure ConnectResult where
  result : HResult Unit
  writes : List (List Nat)
  relayEntered : Bool
deriving DecidableEq, Repr

/-- `SOCKS5ClientConnection::process_connect` (connection.rs lines 209-288)
up to entering the relay loop.  On connect failure the refusal reply is
written with `write_all(..).unwrap()` (line 225) — a failed write panics —
and then `Err(ConnectionFailed)` is returned; on success the reply built
from the destination socket's local bound address is written, again with
`unwrap()` (line 248), and the relay loop starts.  The relay loop itself
always leads to `Ok(())` (line 287). -/
def process_connect (env : Env) (_addr : Address) : ConnectResult :=
  match env.connectResult with
  | none =>
    if env.refusalWriteOk then
      ⟨.err .ConnectionFailed, [refusalReply], false⟩
    else
      ⟨.panicked, [refusalReply], false⟩
  | some (localIp, localPort) =>
    let data := [PROTOCOL_VERSION, REPLY_SUCCEEDED, RESERVED] ++ encodeBndAddr localIp ++ be16 localPort
    if env.successWriteOk then
      ⟨.ok (), [data], true⟩
    else
      ⟨.panicked, [data], false⟩

/-- Result of a whole `process` run: the final outcome (`ok ()` only when
the relay loop was reached), everything written to the client before the
relay phase, whether the relay phase was entered, and whether a destination
stream was successfully established. -/
structure ProcessResult where
  result : HResult Unit
  writes : List (List Nat)
  relayEntered : Bool
  destEstablished : Bool
deriving DecidableEq, Repr

/-- `SOCKS5ClientConnection::process` (connection.rs lines 82-99):
`handle_shake`, then `parse_command`, then `process_connect`; each failure
is logged and the function returns. -/
def process (env : Env) : ProcessResult :=
  let h := handle_shake env
  match h.result with
  | .err e => ⟨.err e, h.writes, false, false⟩
  | .panicked => ⟨.panicked, h.writes, false, false⟩
  | .ok _ =>
    let p := parse_command env h.rest
    match p.result with
    | .err e => ⟨.err e, h.writes, false, false⟩
    | .panicked => ⟨.panicked, h.writes, false, false⟩
    | .ok (.Connect addr) =>
      let c := process_connect env addr
      ⟨c.result, h.writes ++ c.writes, c.relayEntered, env.connectResult.isSome⟩

/-- The replies in `ws` other than the greeting reply `[0x05, 0x00]`
(the error/refusal replies, for counting). -/
def nonGreetingWrites (ws : List (List Nat)) : List (List Nat) :=
  ws.filter (fun w => w ≠ greetingReply)

/-! ### Model of the relay loop -/

/-- Which of the two streams won the `tokio::select!` race in one iteration
of the relay loop (connection.rs lines 250-285). -/
inductive Side where
  | client
  | dest
deriving DecidableEq, Repr

/-- The `try_read` outcome observed in one relay-loop iteration:
`bytes bs` is `Ok(bs.length)` with `bs` the bytes read (`bs = []` is
`Ok(0)`, the peer having closed), `wouldBlock` is `ErrorKind::WouldBlock`,
`ioError` any other read error. -/
inductive RelayRead where
  | bytes (bs : List Nat)
  | wouldBlock
  | ioError
deriving DecidableEq, Repr

/-- One iteration of the relay loop: the ready side and its read outcome. -/
structure RelayEvent where
  side : Side
  result : RelayRead
deriving DecidableEq, Repr

/-- Outcome of the relay loop: `stopped` is whether the loop exited via
`break` (tearing down the whole connection — there is one exit for both
directions), and `toDest` / `toClient` are the chunks forwarded to the
destination / client streams. -/
structure RelayResult where
  stopped : Bool
  toDest : List (List Nat)
  toClient : List (List Nat)
deriving DecidableEq, Repr

/-- The relay loop of `process_connect` (connection.rs lines 250-285) over a
finite schedule of iterations.  `Ok(0)` on either side breaks out of the
single loop; a positive read is forwarded to the opposite stream with
`write_all`; `WouldBlock` re-enters the loop; any other read error breaks.
An exhausted schedule (`[]`) leaves the loop still running
(`stopped = false`). -/
def relayLoop : List RelayEvent → RelayResult
  | [] => ⟨false, [], []⟩
  | e :: rest =>
    match e.result, e.side with
    | .bytes [], _ => ⟨true, [], []⟩
    | .bytes (b :: bs), .client =>
      let r := relayLoop rest
      ⟨r.stopped, (b :: bs) :: r.toDest, r.toClient⟩
    | .bytes (b :: bs), .dest =>
      let r := relayLoop rest
      ⟨r.stopped, r.toDest, (b :: bs) :: r.toClient⟩
    | .wouldBlock, _ => relayLoop rest
    | .ioError, _ => ⟨true, [], []⟩

/-! ### Helper lemmas -/

/-- Reading zero bytes consumes nothing. -/
theorem readN_zero (s : List Nat) : readN 0 s = ([], s) := by
  simp [readN]

/-- Reading `k + 1` bytes from a stream starting with `x` yields `x` followed
by a `k`-byte read of the tail. -/
theorem readN_succ_cons (k : Nat) (x : Nat) (s : List Nat) :
    readN (k + 1) (x :: s) = (x :: (readN k s).1, (readN k s).2) := by
  simp [readN, List.take_succ_cons, Nat.succ_sub_succ]

/-- When the stream holds at least `k` bytes, `readN` is plain take/drop
(no zero padding). -/
theorem readN_of_le (k : Nat) (s : List Nat) (h : k ≤ s.length) :
    readN k s = (s.take k, s.drop k) := by
  simp [readN, Nat.sub_eq_zero_of_le h]

/-- `handle_shake` writes either nothing or exactly the greeting reply. -/
theorem handle_shake_writes_cases (env : Env) :
    (handle_shake env).writes = [] ∨ (handle_shake env).writes = [greetingReply] := by
  simp only [handle_shake]
  split
  · exact Or.inl rfl
  · split
    · exact Or.inl rfl
    · split
      · exact Or.inr rfl
      · exact Or.inr rfl

/-- No write of `handle_shake` counts as an error reply. -/
theorem handle_shake_nonGreeting (env : Env) :
    nonGreetingWrites (handle_shake env).writes = [] := by
  rcases handle_shake_writes_cases env with h | h <;>
    simp [nonGreetingWrites, h]

/-- Replies built by `process_connect` are never the 2-byte greeting reply. -/
theorem connect_reply_ne_greeting (ip : IpAddr) (p : Nat) :
    [PROTOCOL_VERSION, REPLY_SUCCEEDED, RESERVED] ++ encodeBndAddr ip ++ be16 p ≠ greetingReply := by
  intro h
  have hl := congrArg List.length h
  cases ip <;> simp [encodeBndAddr, be16, greetingReply] at hl

/-! ### Claim theorems -/

/-- C1: the exact-length read primitive, asked for 2 bytes on a stream that
delivers 1 byte and then closes (`Ok(0)`), returns `Ok` having accumulated
only 1 byte — the partial result is reported as success, not as a
`ConnectionFailed` error.  This exhibits the divergence between the code
(`Ok(0) => break` followed by `Ok(())`, connection.rs lines 297 and 309)
and the specified behaviour (partial result fatal). -/
theorem read_exact_partial_close_returns_ok :
    read_exact 2 [.avail 1, .avail 0] 0 = .ok 1 ∧ 1 < 2 := by
  decide

/-- C2: a client greeting offering exactly one method, `0x02` (so `0x00` is
not among the offered identifiers), is nevertheless accepted: the server
replies `[0x05, 0x00]` and the handshake returns `Ok`.  The pre-filled
zeros of `vec![0; num_methods]` (connection.rs line 111) make the
`contains(&0x00)` test pass for every nonempty method list, so the
`UnsupportedAuthMethod` rejection demanded by the claim does not happen. -/
theorem handle_shake_accepts_list_without_noauth :
    (0x00 : Nat) ∉ [(0x02 : Nat)] ∧
    handle_shake ⟨[0x05, 0x01, 0x02], none, none, true, true, true⟩ =
      ⟨.ok (), [[0x05, 0x00]], []⟩ := by
  decide

/-- C3: a domain-name request (`ATYP = 0x03`) whose hostname fails to
resolve makes `parse_command` panic (the `unwrap()` calls on
`to_socket_addrs` at connection.rs lines 186-187), rather than fail with
the `ConnectionFailed` error the claim requires. -/
theorem parse_command_resolution_failure_panics :
    parse_command ⟨[], none, none, true, true, true⟩ [0x05, 0x01, 0x00, 0x03, 1, 120] =
      ⟨.panicked, []⟩ := by
  decide

/-- C5: in the relay loop, a zero-byte read (`Ok(0)`) on either side stops
the whole loop with no further forwarding in either direction; a
would-block result just re-enters the loop; any other read error on either
side stops the whole loop; and a positive read is forwarded to the
opposite stream while both directions continue together.  The loop has a
single exit shared by both directions, so they are never torn down
independently. -/
theorem relayLoop_teardown_semantics :
    ∀ (s : Side) (rest : List RelayEvent),
      relayLoop (⟨s, .bytes []⟩ :: rest) = ⟨true, [], []⟩ ∧
      relayLoop (⟨s, .wouldBlock⟩ :: rest) = relayLoop rest ∧
      relayLoop (⟨s, .ioError⟩ :: rest) = ⟨true, [], []⟩ ∧
      (∀ (b : Nat) (bs : List Nat),
        relayLoop (⟨Side.client, .bytes (b :: bs)⟩ :: rest) =
          ⟨(relayLoop rest).stopped, (b :: bs) :: (relayLoop rest).toDest,
            (relayLoop rest).toClient⟩) ∧
      (∀ (b : Nat) (bs : List Nat),
        relayLoop (⟨Side.dest, .bytes (b :: bs)⟩ :: rest) =
          ⟨(relayLoop rest).stopped, (relayLoop rest).toDest,
            (b :: bs) :: (relayLoop rest).toClient⟩) := by
  intro s rest
  refine ⟨?_, ?_, ?_, fun b bs => rfl, fun b bs => rfl⟩ <;> cases s <;> rfl

/-- C6: on a successful destination connect, the reply written to the
client is version, `Succeeded` (0x00), reserved, then the address-type tag
and raw octets of the destination socket's local bound address, then its
local port in big-endian — for IPv4 (tag 0x01, 4 octets) and IPv6 (tag
0x04, 16 octets) bound addresses alike — and the relay phase is entered. -/
theorem process_connect_success_reply :
    ∀ (input : List Nat) (rr : Option IpAddr) (g rf : Bool) (addr : Address)
      (o : List Nat) (p : Nat),
      process_connect ⟨input, rr, some (.v4 o, p), g, rf, true⟩ addr =
        ⟨.ok (), [[0x05, 0x00, 0x00, 0x01] ++ o ++ [p / 256 % 256, p % 256]], true⟩ ∧
      process_connect ⟨input, rr, some (.v6 o, p), g, rf, true⟩ addr =
        ⟨.ok (), [[0x05, 0x00, 0x00, 0x04] ++ o ++ [p / 256 % 256, p % 256]], true⟩ := by
  intro input rr g rf addr o p
  exact ⟨rfl, rfl⟩

/-- C7: on a failed destination connect, the server writes exactly the ten
bytes `[0x05, 0x05, 0x00, 0x01, 0, 0, 0, 0, 0, 0]` (ConnectionRefused,
IPv4, all-zero address and port) and returns `ConnectionFailed` without
entering the relay phase — a single reply, no retry. -/
theorem process_connect_refusal_reply :
    ∀ (input : List Nat) (rr : Option IpAddr) (g sw : Bool) (addr : Address),
      process_connect ⟨input, rr, none, g, true, sw⟩ addr =
        ⟨.err .ConnectionFailed, [[0x05, 0x05, 0x00, 0x01, 0, 0, 0, 0, 0, 0]], false⟩ := by
  intro input rr g sw addr
  rfl

/-- C8: a greeting whose first byte differs from `0x05` makes the handshake
fail with `InvalidVersion` while nothing is written to the client; a
request header whose version byte differs from `0x05` makes `parse_command`
fail with `InvalidVersion`; at the `process` level the greeting case writes
nothing at all, and the request-header case writes nothing beyond the
already-sent greeting reply — in all cases the connection ends without any
reply to the offending message. -/
theorem version_gate :
    (∀ (v : Nat) (rest : List Nat) (rr : Option IpAddr) (cr : Option (IpAddr × Nat))
      (g rf sw : Bool), v ≠ 0x05 →
      handle_shake ⟨v :: rest, rr, cr, g, rf, sw⟩ =
        ⟨.err .InvalidVersion, [], rest.drop 1⟩) ∧
    (∀ (env : Env) (v : Nat) (rest : List Nat), v ≠ 0x05 →
      parse_command env (v :: rest) = ⟨.err .InvalidVersion, rest.drop 3⟩) ∧
    (∀ (v : Nat) (rest : List Nat) (rr : Option IpAddr) (cr : Option (IpAddr × Nat))
      (g rf sw : Bool), v ≠ 0x05 →
      process ⟨v :: rest, rr, cr, g, rf, sw⟩ = ⟨.err .InvalidVersion, [], false, false⟩) ∧
    (∀ (v : Nat) (rest : List Nat) (rr : Option IpAddr) (cr : Option (IpAddr × Nat))
      (rf sw : Bool), v ≠ 0x05 →
      process ⟨[0x05, 0x01, 0x00] ++ v :: rest, rr, cr, true, rf, sw⟩ =
        ⟨.err .InvalidVersion, [greetingReply], false, false⟩) := by
  have h1 : ∀ (v : Nat) (rest : List Nat) (rr : Option IpAddr) (cr : Option (IpAddr × Nat))
      (g rf sw : Bool), v ≠ 0x05 →
      handle_shake ⟨v :: rest, rr, cr, g, rf, sw⟩ =
        ⟨.err .InvalidVersion, [], rest.drop 1⟩ := by
    intro v rest rr cr g rf sw hv
    have e : readN 2 (v :: rest) = (v :: (readN 1 rest).1, (readN 1 rest).2) :=
      readN_succ_cons 1 v rest
    simp [handle_shake, e, hv, PROTOCOL_VERSION, readN]
  have h2 : ∀ (env : Env) (v : Nat) (rest : List Nat), v ≠ 0x05 →
      parse_command env (v :: rest) = ⟨.err .InvalidVersion, rest.drop 3⟩ := by
    intro env v rest hv
    have e : readN 4 (v :: rest) = (v :: (readN 3 rest).1, (readN 3 rest).2) :=
      readN_succ_cons 3 v rest
    simp [parse_command, e, hv, PROTOCOL_VERSION, readN]
  have h3 : ∀ (v : Nat) (rest : List Nat) (rr : Option IpAddr) (cr : Option (IpAddr × Nat))
      (g rf sw : Bool), v ≠ 0x05 →
      process ⟨v :: rest, rr, cr, g, rf, sw⟩ = ⟨.err .InvalidVersion, [], false, false⟩ := by
    intro v rest rr cr g rf sw hv
    have h := h1 v rest rr cr g rf sw hv
    simp [process, h]
  have h4 : ∀ (v : Nat) (rest : List Nat) (rr : Option IpAddr) (cr : Option (IpAddr × Nat))
      (rf sw : Bool), v ≠ 0x05 →
      process ⟨[0x05, 0x01, 0x00] ++ v :: rest, rr, cr, true, rf, sw⟩ =
        ⟨.err .InvalidVersion, [greetingReply], false, false⟩ := by
    intro v rest rr cr rf sw hv
    have hs : handle_shake ⟨[0x05, 0x01, 0x00] ++ v :: rest, rr, cr, true, rf, sw⟩ =
        ⟨.ok (), [greetingReply], v :: rest⟩ := rfl
    have hp := h2 ⟨[0x05, 0x01, 0x00] ++ v :: rest, rr, cr, true, rf, sw⟩ v rest hv
    simp only [List.cons_append, List.nil_append] at hs hp
    simp [process, hs, hp]
  exact ⟨h1, h2, h3, h4⟩

/-- Witness for C8 at the concrete greeting byte `0x04` and a concrete
post-handshake request starting with version byte `0x04`. -/
theorem version_gate_witness :
    process ⟨[0x04], none, none, true, true, true⟩ =
      ⟨.err .InvalidVersion, [], false, false⟩ ∧
    process ⟨[0x05, 0x01, 0x00, 0x04, 0x01, 0x00, 0x01], none, none, true, true, true⟩ =
      ⟨.err .InvalidVersion, [greetingReply], false, false⟩ :=
  ⟨version_gate.2.2.1 0x04 [] none none true true true (by decide),
   version_gate.2.2.2 0x04 [0x01, 0x00, 0x01] none none true true (by decide)⟩

/-- C9: a request with `ATYP = 0x01` parses its 4 address bytes as the IPv4
octets and the following 2 bytes as a big-endian 16-bit port — in
particular address bytes `[192,168,1,1]` with port bytes `[0x1F, 0x90]`
parse to target `192.168.1.1:8080` — and a request with `ATYP = 0x04`
parses its 16 address bytes as the IPv6 octets with the same big-endian
port decoding. -/
theorem address_decode :
    (∀ env : Env,
      parse_command env [0x05, 0x01, 0x00, 0x01, 192, 168, 1, 1, 0x1F, 0x90] =
        ⟨.ok (.Connect ⟨.v4 [192, 168, 1, 1], 8080⟩), []⟩) ∧
    (∀ (env : Env) (a b c d p0 p1 : Nat) (rest : List Nat),
      parse_command env ([0x05, 0x01, 0x00, 0x01, a, b, c, d, p0, p1] ++ rest) =
        ⟨.ok (.Connect ⟨.v4 [a, b, c, d], p0 * 256 + p1⟩), rest⟩) ∧
    (∀ (env : Env) (o : List Nat) (p0 p1 : Nat) (rest : List Nat), o.length = 16 →
      parse_command env ([0x05, 0x01, 0x00, 0x04] ++ o ++ p0 :: p1 :: rest) =
        ⟨.ok (.Connect ⟨.v6 o, p0 * 256 + p1⟩), rest⟩) := by
  have h2 : ∀ (env : Env) (a b c d p0 p1 : Nat) (rest : List Nat),
      parse_command env ([0x05, 0x01, 0x00, 0x01, a, b, c, d, p0, p1] ++ rest) =
        ⟨.ok (.Connect ⟨.v4 [a, b, c, d], p0 * 256 + p1⟩), rest⟩ := by
    intro env a b c d p0 p1 rest
    have hlen : 4 ≤ ([a, b, c, d, p0, p1] ++ rest).length := by
      simp only [List.length_append, List.length_cons, List.length_nil]
      omega
    have e2 : readN 4 ([a, b, c, d, p0, p1] ++ rest) = ([a, b, c, d], [p0, p1] ++ rest) := by
      rw [readN_of_le _ _ hlen]
      rfl
    calc parse_command env ([0x05, 0x01, 0x00, 0x01, a, b, c, d, p0, p1] ++ rest)
        = ⟨.ok (.Connect ⟨.v4 (readN 4 ([a, b, c, d, p0, p1] ++ rest)).1,
            p0 * 256 + p1⟩), rest⟩ := by rfl
      _ = ⟨.ok (.Connect ⟨.v4 [a, b, c, d], p0 * 256 + p1⟩), rest⟩ := by
        rw [e2]
  have h3 : ∀ (env : Env) (o : List Nat) (p0 p1 : Nat) (rest : List Nat), o.length = 16 →
      parse_command env ([0x05, 0x01, 0x00, 0x04] ++ o ++ p0 :: p1 :: rest) =
        ⟨.ok (.Connect ⟨.v6 o, p0 * 256 + p1⟩), rest⟩ := by
    intro env o p0 p1 rest h16
    have hlen : 16 ≤ (o ++ p0 :: p1 :: rest).length := by
      simp only [List.length_append, List.length_cons, h16]
      omega
    have e16 : readN 16 (o ++ p0 :: p1 :: rest) = (o, p0 :: p1 :: rest) := by
      rw [readN_of_le _ _ hlen, List.take_left' h16, List.drop_left' h16]
    calc parse_command env ([0x05, 0x01, 0x00, 0x04] ++ o ++ p0 :: p1 :: rest)
        = ⟨.ok (.Connect ⟨.v6 (readN 16 (o ++ p0 :: p1 :: rest)).1,
            u16FromBe (readN 2 (readN 16 (o ++ p0 :: p1 :: rest)).2).1⟩),
            (readN 2 (readN 16 (o ++ p0 :: p1 :: rest)).2).2⟩ := by rfl
      _ = ⟨.ok (.Connect ⟨.v6 o, p0 * 256 + p1⟩), rest⟩ := by
        rw [e16]
        rfl
  refine ⟨fun env => ?_, h2, h3⟩
  simpa using h2 env 192 168 1 1 0x1F 0x90 []

/-- Witness for C9's IPv6 clause at a concrete 16-byte address. -/
theorem address_decode_witness :
    (List.replicate 16 0xAB).length = 16 ∧
    parse_command ⟨[], none, none, true, true, true⟩
      ([0x05, 0x01, 0x00, 0x04] ++ List.replicate 16 0xAB ++ 0x1F :: 0x90 :: []) =
      ⟨.ok (.Connect ⟨.v6 (List.replicate 16 0xAB), 0x1F * 256 + 0x90⟩), []⟩ :=
  ⟨by decide,
   address_decode.2.2 ⟨[], none, none, true, true, true⟩ (List.replicate 16 0xAB)
     0x1F 0x90 [] (by decide)⟩

/-- Filtering out the greeting reply distributes over concatenation. -/
theorem nonGreeting_append (a b : List (List Nat)) :
    nonGreetingWrites (a ++ b) = nonGreetingWrites a ++ nonGreetingWrites b := by
  simp [nonGreetingWrites]

/-- A single write contributes at most one error reply. -/
theorem nonGreeting_singleton_le (w : List Nat) :
    (nonGreetingWrites [w]).length ≤ 1 := by
  simpa [nonGreetingWrites] using
    List.length_filter_le (fun x => decide (x ≠ greetingReply)) [w]

/-- C4: in every run of `process`, the relay phase is entered only when the
destination stream was successfully established, and every run that does
not reach the relay phase (any handshake, parse or connect failure,
including the panicking write paths) ends with the relay phase never
entered and at most one reply beyond the greeting reply written to the
client. -/
theorem connection_phase_invariant :
    ∀ env : Env,
      ((process env).relayEntered = true → (process env).destEstablished = true) ∧
      ((process env).result ≠ .ok () →
        (process env).relayEntered = false ∧
        (nonGreetingWrites (process env).writes).length ≤ 1) := by
  intro env
  cases h1 : (handle_shake env).result with
  | err e =>
    have hp : process env = ⟨.err e, (handle_shake env).writes, false, false⟩ := by
      simp [process, h1]
    simp [hp, handle_shake_nonGreeting]
  | panicked =>
    have hp : process env = ⟨.panicked, (handle_shake env).writes, false, false⟩ := by
      simp [process, h1]
    simp [hp, handle_shake_nonGreeting]
  | ok u =>
    cases u
    cases h2 : (parse_command env (handle_shake env).rest).result with
    | err e =>
      have hp : process env = ⟨.err e, (handle_shake env).writes, false, false⟩ := by
        simp [process, h1, h2]
      simp [hp, handle_shake_nonGreeting]
    | panicked =>
      have hp : process env = ⟨.panicked, (handle_shake env).writes, false, false⟩ := by
        simp [process, h1, h2]
      simp [hp, handle_shake_nonGreeting]
    | ok cmd =>
      cases cmd with
      | Connect addr =>
        have hp : process env = ⟨(process_connect env addr).result,
            (handle_shake env).writes ++ (process_connect env addr).writes,
            (process_connect env addr).relayEntered, env.connectResult.isSome⟩ := by
          simp [process, h1, h2]
        cases h3 : env.connectResult with
        | none =>
          by_cases h4 : env.refusalWriteOk
          · have hc : process_connect env addr =
                ⟨.err .ConnectionFailed, [refusalReply], false⟩ := by
              simp [process_connect, h3, h4]
            refine ⟨by simp [hp, hc], fun _ => ⟨by simp [hp, hc], ?_⟩⟩
            rw [hp, hc]
            simp [nonGreeting_append, handle_shake_nonGreeting]
            exact nonGreeting_singleton_le _
          · have hc : process_connect env addr = ⟨.panicked, [refusalReply], false⟩ := by
              simp [process_connect, h3, h4]
            refine ⟨by simp [hp, hc], fun _ => ⟨by simp [hp, hc], ?_⟩⟩
            rw [hp, hc]
            simp [nonGreeting_append, handle_shake_nonGreeting]
            exact nonGreeting_singleton_le _
        | some pr =>
          obtain ⟨ip, p⟩ := pr
          by_cases h4 : env.successWriteOk
          · have hc : process_connect env addr = ⟨.ok (),
                [[PROTOCOL_VERSION, REPLY_SUCCEEDED, RESERVED] ++ encodeBndAddr ip ++ be16 p],
                true⟩ := by
              simp [process_connect, h3, h4]
            simp [hp, hc, h3]
          · have hc : process_connect env addr = ⟨.panicked,
                [[PROTOCOL_VERSION, REPLY_SUCCEEDED, RESERVED] ++ encodeBndAddr ip ++ be16 p],
                false⟩ := by
              simp [process_connect, h3, h4]
            refine ⟨by simp [hp, hc], fun _ => ⟨by simp [hp, hc], ?_⟩⟩
            rw [hp, hc]
            simp [nonGreeting_append, handle_shake_nonGreeting]
            exact nonGreeting_singleton_le _

/-- Witness for C4 at a concrete full run: greeting `[5,1,0]`, IPv4 CONNECT
request to 127.0.0.1:8080, destination connect succeeding with local bound
address 127.0.0.1:1080. -/
theorem connection_phase_invariant_witness :
    (process ⟨[0x05, 0x01, 0x00, 0x05, 0x01, 0x00, 0x01, 127, 0, 0, 1, 0x1F, 0x90],
      none, some (.v4 [127, 0, 0, 1], 1080), true, true, true⟩).destEstablished = true :=
  (connection_phase_invariant
    ⟨[0x05, 0x01, 0x00, 0x05, 0x01, 0x00, 0x01, 127, 0, 0, 1, 0x1F, 0x90],
      none, some (.v4 [127, 0, 0, 1], 1080), true, true, true⟩).1 (by decide)

/-- Every offset at which `read_exact` evaluates the slice `buf[offset..]`
stays within the buffer length. -/
theorem readExactOffsets_bounded (len : Nat) (evts : List TryRead) :
    ∀ off : Nat, off ≤ len → ∀ o ∈ readExactOffsets len evts off, o ≤ len := by
  induction evts with
  | nil =>
    intro off hoff o ho
    simp [readExactOffsets] at ho
    omega
  | cons e rest ih =>
    intro off hoff o ho
    by_cases hlt : off < len
    · cases e with
      | avail n =>
        cases n with
        | zero =>
          simp [readExactOffsets, hlt] at ho
          omega
        | succ m =>
          simp [readExactOffsets, hlt] at ho
          rcases ho with rfl | hmem
          · exact hoff
          · have hmin := Nat.min_le_right (m + 1) (len - off)
            exact ih _ (by omega) _ hmem
      | wouldBlock =>
        simp [readExactOffsets, hlt] at ho
        rcases ho with rfl | hmem
        · exact hoff
        · exact ih _ hoff _ hmem
      | ioError =>
        simp [readExactOffsets, hlt] at ho
        omega
    · simp [readExactOffsets, hlt] at ho
      omega

/-- The final accumulated count reported by a successful `read_exact` never
exceeds the buffer length. -/
theorem read_exact_ok_bounded (len : Nat) (evts : List TryRead) :
    ∀ off f : Nat, off ≤ len → read_exact len evts off = .ok f → f ≤ len := by
  induction evts with
  | nil =>
    intro off f hoff h
    simp only [read_exact] at h
    split at h
    · exact absurd h (by simp)
    · cases h
      exact hoff
  | cons e rest ih =>
    intro off f hoff h
    by_cases hlt : off < len
    · cases e with
      | avail n =>
        cases n with
        | zero =>
          simp [read_exact, hlt] at h
          omega
        | succ m =>
          simp only [read_exact, if_pos hlt] at h
          have hmin := Nat.min_le_right (m + 1) (len - off)
          exact ih _ _ (by omega) h
      | wouldBlock =>
        simp only [read_exact, if_pos hlt] at h
        exact ih _ _ hoff h
      | ioError =>
        simp [read_exact, hlt] at h
    · simp [read_exact, hlt] at h
      omega

/-- Every offset at which `write_all` evaluates the slice `buf[offset..]`
stays within the buffer length. -/
theorem writeAllOffsets_bounded (len : Nat) (evts : List TryRead) :
    ∀ off : Nat, off ≤ len → ∀ o ∈ writeAllOffsets len evts off, o ≤ len := by
  induction evts with
  | nil =>
    intro off hoff o ho
    simp [writeAllOffsets] at ho
    omega
  | cons e rest ih =>
    intro off hoff o ho
    by_cases hlt : off < len
    · cases e with
      | avail n =>
        cases n with
        | zero =>
          simp [writeAllOffsets, hlt] at ho
          omega
        | succ m =>
          simp [writeAllOffsets, hlt] at ho
          rcases ho with rfl | hmem
          · exact hoff
          · have hmin := Nat.min_le_right (m + 1) (len - off)
            exact ih _ (by omega) _ hmem
      | wouldBlock =>
        simp [writeAllOffsets, hlt] at ho
        rcases ho with rfl | hmem
        · exact hoff
        · exact ih _ hoff _ hmem
      | ioError =>
        simp [writeAllOffsets, hlt] at ho
        omega
    · simp [writeAllOffsets, hlt] at ho
      omega

/-- The final accumulated count reported by a successful `write_all` never
exceeds the buffer length. -/
theorem write_all_ok_bounded (len : Nat) (evts : List TryRead) :
    ∀ off f : Nat, off ≤ len → write_all len evts off = .ok f → f ≤ len := by
  induction evts with
  | nil =>
    intro off f hoff h
    simp only [write_all] at h
    split at h
    · exact absurd h (by simp)
    · cases h
      exact hoff
  | cons e rest ih =>
    intro off f hoff h
    by_cases hlt : off < len
    · cases e with
      | avail n =>
        cases n with
        | zero =>
          simp [write_all, hlt] at h
          omega
        | succ m =>
          simp only [write_all, if_pos hlt] at h
          have hmin := Nat.min_le_right (m + 1) (len - off)
          exact ih _ _ (by omega) h
      | wouldBlock =>
        simp only [write_all, if_pos hlt] at h
        exact ih _ _ hoff h
      | ioError =>
        simp [write_all, hlt] at h
    · simp [write_all, hlt] at h
      omega

/-- C10: in both exact-length I/O primitives, starting from an in-bounds
offset, every offset at which the loop body takes the slice `buf[offset..]`
is at most the buffer length (so every slice is in bounds), the byte count
accumulated by a successful run never exceeds the buffer length, and a
call with an empty buffer returns `Ok` immediately — for every event list,
including ones that would fail, i.e. without performing any I/O. -/
theorem exact_io_slice_bounds :
    (∀ (len : Nat) (evts : List TryRead) (off : Nat), off ≤ len →
      ∀ o ∈ readExactOffsets len evts off, o ≤ len) ∧
    (∀ (len : Nat) (evts : List TryRead) (off f : Nat), off ≤ len →
      read_exact len evts off = .ok f → f ≤ len) ∧
    (∀ evts : List TryRead, read_exact 0 evts 0 = .ok 0) ∧
    (∀ (len : Nat) (evts : List TryRead) (off : Nat), off ≤ len →
      ∀ o ∈ writeAllOffsets len evts off, o ≤ len) ∧
    (∀ (len : Nat) (evts : List TryRead) (off f : Nat), off ≤ len →
      write_all len evts off = .ok f → f ≤ len) ∧
    (∀ evts : List TryRead, write_all 0 evts 0 = .ok 0) := by
  refine ⟨fun len evts => readExactOffsets_bounded len evts,
    fun len evts => read_exact_ok_bounded len evts,
    fun evts => ?_,
    fun len evts => writeAllOffsets_bounded len evts,
    fun len evts => write_all_ok_bounded len evts,
    fun evts => ?_⟩ <;> cases evts <;> rfl

/-- Witness for C10 at concrete runs: a 2-byte buffer receiving 1 byte
(offsets 0 and 1 both within bounds), and empty-buffer calls on an
erroring event stream. -/
theorem exact_io_slice_bounds_witness :
    (1 ≤ 2 ∧ read_exact 0 [.ioError] 0 = .ok 0) ∧
    (1 ≤ 2 ∧ write_all 0 [.ioError] 0 = .ok 0) :=
  ⟨⟨exact_io_slice_bounds.1 2 [.avail 1] 0 (by decide) 1 (by decide),
    exact_io_slice_bounds.2.2.1 [.ioError]⟩,
   ⟨exact_io_slice_bounds.2.2.2.1 2 [.avail 1] 0 (by decide) 1 (by decide),
    exact_io_slice_bounds.2.2.2.2.2 [.ioError]⟩⟩

end RsSocks5
